import Mathlib

/-!
Shallow embedding of the core of the `solver` finite-volume code
(src/solvers/solver/solver.cpp, src/util/util.h, src/src/util/util.h),
together with theorems settling the specification claims about it.

Strings are modelled as lists of characters, scalar values as rationals,
cell fields as functions out of `Fin n`, and the operations of `field.h`
that are not part of the given sources (differential operators, linear
solver, boundary-condition evaluation) as abstract operation records that
the driver functions are parameterized over.
-/

namespace Solver

/-! ### Strings and case-insensitive matching (src/util/util.h) -/

/-- ASCII upper-casing of one character, as C `toupper` acts on the
configuration strings of this program. -/
def toUpperChar (c : Char) : Char :=
  if 'a' ≤ c ∧ c ≤ 'z' then Char.ofNat (c.toNat - 32) else c

/-- A C++ `std::string`, modelled as its list of characters. -/
abbrev Str := List Char

/-- `transform(t.begin(),t.end(),t.begin(),toupper)` applied to a string. -/
def strUp (s : Str) : Str := s.map toUpperChar

/-- `Util::compare` (src/util/util.h:57-62): upper-case both strings and
return whether they differ (`0`/`false` means the strings match). -/
def compare (s1 s2 : Str) : Bool := decide (strUp s1 ≠ strUp s2)

/-- Helper for `Util::Option::getID`: index of the first list entry that
matches `str` case-insensitively, scanning from position `i`. -/
def getIDaux (str : Str) : List Str → Nat → Option Nat
  | [], _ => none
  | l :: ls, i => if compare l str = false then some i else getIDaux str ls (i + 1)

/-- `Util::Option::getID` (src/util/util.h:83-88).  Returns the matched
enumerator index together with a flag recording whether the one-line
`"Unknown parameter"` diagnostic was printed; on no match the function
prints the diagnostic and returns index `0`, and parsing continues. -/
def getID (list : List Str) (str : Str) : Nat × Bool :=
  match getIDaux str list 0 with
  | some i => (i, false)
  | none => (0, true)

/-- The enumerator-name list of the `turbulence_model` option
(src/solvers/solver/solver.cpp:148-149). -/
def turbModelNames : List Str :=
  ["NONE", "MIXING_LENGTH", "KE", "RNG_KE", "REALIZABLE_KE", "KW", "LES"].map
    String.toList

/-- `Util::ParamList::read` key lookup (src/src/util/util.h:161-178): keys
are looked up exactly in the enrolled maps; this flag records whether the
key was unknown, in which case the code prints `"UNKNOWN"` and continues. -/
def paramListUnknown (keys : List Str) (k : Str) : Bool := decide (k ∉ keys)

/-- The four solver drivers dispatched by `main`. -/
inductive SolverName
  | piso
  | diffusion
  | transport
  | potential
  deriving DecidableEq, Repr

/-- The solver-dispatch chain of `main` (src/solvers/solver/solver.cpp:67-75):
the first of piso/diffusion/transport/potential whose name matches `sname`
case-insensitively, or none of them (in which case no solver runs). -/
def selectSolver (sname : Str) : Option SolverName :=
  if compare sname ("piso".toList) = false then some SolverName.piso
  else if compare sname ("diffusion".toList) = false then some SolverName.diffusion
  else if compare sname ("transport".toList) = false then some SolverName.transport
  else if compare sname ("potential".toList) = false then some SolverName.potential
  else none

/-- `main` (src/solvers/solver/solver.cpp:39-78) reduced to its observable
outcome: which solver ran and the process exit code.  The only `return 1`
is the failure of `System::cd` into the per-rank mesh directory when
`mp.n_hosts > 1`; every other path, including an unmatched `solver` value,
falls through to `return 0`. -/
def mainRun (nHosts : Nat) (cdOK : Bool) (sname : Str) : Option SolverName × Nat :=
  if 1 < nHosts ∧ cdOK = false then (none, 1)
  else (selectSolver sname, 0)

/-! ### Lemmas about case-insensitive matching -/

theorem compare_congr {s1 s2 : Str} (h : strUp s1 = strUp s2) (l : Str) :
    compare l s1 = compare l s2 := by
  simp only [compare, h]

theorem getIDaux_congr {s1 s2 : Str} (h : strUp s1 = strUp s2) :
    ∀ (list : List Str) (i : Nat), getIDaux s1 list i = getIDaux s2 list i := by
  intro list
  induction list with
  | nil => intro i; rfl
  | cons l ls ih =>
    intro i
    simp only [getIDaux, compare_congr h l, ih]

theorem getIDaux_none {str : Str} :
    ∀ (list : List Str) (i : Nat), (∀ l ∈ list, compare l str = true) →
      getIDaux str list i = none := by
  intro list
  induction list with
  | nil => intro i _; rfl
  | cons l ls ih =>
    intro i h
    have hl : compare l str = true := h l (List.mem_cons_self l ls)
    simp only [getIDaux, hl]
    simp only [Bool.true_eq_false, if_false]
    exact ih (i + 1) fun x hx => h x (List.mem_cons_of_mem l hx)

/-! ### Claims C1 and C2: configuration parsing -/

/-- C1 (counterexample).  A `solver` value matching none of
piso/diffusion/transport/potential makes `main` run no solver and exit 0,
not 1; an out-of-range `turbulence_model` value makes `getID` print its
one-line diagnostic but return enumerator 0 with parsing continuing; an
unknown key in a block prints `UNKNOWN` and continues.  So a configuration
error does not terminate the process with exit code 1. -/
theorem claim1_counterexample :
    mainRun 1 true ("frobnicate".toList) = (none, 0) ∧
      getID turbModelNames ("FOO".toList) = (0, true) ∧
      paramListUnknown (["velocity_UR".toList, "n_PISO".toList]) ("frobs".toList) = true := by
  refine ⟨?_, by decide, by decide⟩
  rfl

/-- C1 (amended).  An input string matching no enumerator makes `getID`
return index 0 with the one-line diagnostic printed, and parsing
continues; the process exit code does not depend on configuration
content: a single-rank run exits 0 whatever the `solver` string is
(even one selecting no solver), and exit code 1 arises only from the
multi-rank mesh-directory change failure. -/
theorem claim1_amended (list : List Str) (s t : Str)
    (h : list.all (fun l => compare l s) = true) :
    getID list s = (0, true) ∧ (mainRun 1 true t).2 = 0 ∧
      mainRun 4 false t = (none, 1) := by
  refine ⟨?_, rfl, rfl⟩
  have h2 : ∀ l ∈ list, compare l s = true := by
    intro l hl
    exact List.all_eq_true.mp h l hl
  simp only [getID, getIDaux_none list 0 h2]

theorem claim1_amended_witness :
    turbModelNames.all (fun l => compare l ("FOO".toList)) = true ∧
      (getID turbModelNames ("FOO".toList) = (0, true) ∧
        (mainRun 1 true ("frobnicate".toList)).2 = 0 ∧
        mainRun 4 false ("frobnicate".toList) = (none, 1)) :=
  ⟨by decide, claim1_amended turbModelNames ("FOO".toList) ("frobnicate".toList) (by decide)⟩

/-- C2.  Enumeration-valued configuration values are matched
case-insensitively: two input strings with the same upper-casing select
the same enumerator in every `Util::Option` list (e.g. `turbulence_model`,
`state`) and dispatch the same solver in `main`. -/
theorem claim2_case_insensitive (list : List Str) (s1 s2 : Str)
    (h : strUp s1 = strUp s2) :
    getID list s1 = getID list s2 ∧ selectSolver s1 = selectSolver s2 := by
  constructor
  · simp only [getID, getIDaux_congr h]
  · simp only [selectSolver, compare, h]

theorem claim2_case_insensitive_witness :
    strUp ("ke".toList) = strUp ("KE".toList) ∧
      (getID turbModelNames ("ke".toList) = getID turbModelNames ("KE".toList) ∧
        selectSolver ("ke".toList) = selectSolver ("KE".toList)) :=
  ⟨by decide, claim2_case_insensitive turbModelNames ("ke".toList) ("KE".toList) (by decide)⟩

/-! ### MeshMatrix algebra

The sparse FV matrix of `field.h` is not among the given sources; it is
modelled from the spec (sections 3 and 4.3): a diagonal `ap` and
off-diagonal coefficients `an` (scalars per cell, with the face-local
stencil generalized to a cell-indexed table), and an explicit source `Su`
whose entries have the field element type `T` (`Scalar` for scalar
equations, `Vector` for momentum). -/

@[ext]
structure MeshMatrix (n : Nat) (T : Type) where
  ap : Fin n → ℚ
  an : Fin n → Fin n → ℚ
  Su : Fin n → T

variable {n : Nat} {T : Type} [AddCommGroup T] [Module ℚ T]

/-- Modelled from the spec: `M·field` is the matrix-free apply of the
operator `A` with `A = diag(ap) − an`, the sign convention that makes the
fixed point of `A·φ = Su` satisfy `φ = (Su + off_diag·φ)/ap`, consistent
with `getRHS(M) = Su + off_diag·φ_current` (spec section 4.3). -/
def applyM (M : MeshMatrix n T) (φ : Fin n → T) : Fin n → T :=
  fun i => M.ap i • φ i - ∑ j, M.an i j • φ j

/-- Modelled from the spec: `getRHS(M) = Su + off_diag·φ_current`
(spec section 4.3); `φ_current` is the field the matrix was assembled
around, passed explicitly here. -/
def getRHS (M : MeshMatrix n T) (φ : Fin n → T) : Fin n → T :=
  fun i => M.Su i + ∑ j, M.an i j • φ j

/-- Modelled from the spec: `c·M` (spec section 4.3), C++ `M *= c`, which
scales every coefficient array of the matrix object, `Su` included. -/
def scaleM (c : ℚ) (M : MeshMatrix n T) : MeshMatrix n T :=
  ⟨fun i => c * M.ap i, fun i j => c * M.an i j, fun i => c • M.Su i⟩

/-- Modelled from the spec: `M1 + M2` (spec section 4.3), coefficientwise. -/
def addM (M1 M2 : MeshMatrix n T) : MeshMatrix n T :=
  ⟨fun i => M1.ap i + M2.ap i, fun i j => M1.an i j + M2.an i j,
    fun i => M1.Su i + M2.Su i⟩

/-- Modelled from the spec: `M.Relax(α)` divides the diagonal by `α` and
adds `(1−α)/α · ap_old · φ_current` to `Su` (spec section 4.3). -/
def MeshMatrix.Relax (M : MeshMatrix n T) (α : ℚ) (φ : Fin n → T) : MeshMatrix n T :=
  ⟨fun i => M.ap i / α, M.an, fun i => M.Su i + ((1 - α) / α * M.ap i) • φ i⟩

/-- The Crank–Nicolson rewrite guarded by `if(!equal(time_factor,1))`
(src/solvers/solver/solver.cpp:266-270, 416-420, 496-500):
`po = M*φ; M *= θ; M.Su -= (1−θ)*po`, with `po` computed from the
assembled matrix before the scaling. -/
def cnRewrite (θ : ℚ) (M : MeshMatrix n T) (φ : Fin n → T) : MeshMatrix n T :=
  if θ = 1 then M
  else
    let po := applyM M φ
    let M2 := scaleM θ M
    { M2 with Su := fun i => M2.Su i - (1 - θ) • po i }

/-- The transient branch shared by piso/diffusion/transport: the
Crank–Nicolson rewrite applied to the assembled matrix, after which the
time-derivative matrix `ddt(φ,ρ)` is added
(src/solvers/solver/solver.cpp:264-272, 415-421, 495-501). -/
def assembleTransient (θ : ℚ) (M : MeshMatrix n T) (φ : Fin n → T)
    (ddtM : MeshMatrix n T) : MeshMatrix n T :=
  addM (cnRewrite θ M φ) ddtM

/-- The rewrite as the claim words it: the matrix coefficients
become `θ·M` and the source becomes `Su − (1−θ)·(M·φⁿ)`, with `M` in the
formulas the assembled matrix and `Su` the already-scaled source of
`θ·M`. -/
def cnRewriteSpec (θ : ℚ) (M : MeshMatrix n T) (φ : Fin n → T) : MeshMatrix n T :=
  ⟨fun i => θ * M.ap i, fun i j => θ * M.an i j,
    fun i => θ • M.Su i - (1 - θ) • applyM M φ i⟩

theorem cnRewriteSpec_one (M : MeshMatrix n T) (φ : Fin n → T) :
    cnRewriteSpec 1 M φ = M := by
  ext i
  · simp [cnRewriteSpec]
  · simp [cnRewriteSpec]
  · simp [cnRewriteSpec]

theorem cnRewrite_eq_spec (θ : ℚ) (M : MeshMatrix n T) (φ : Fin n → T) :
    cnRewrite θ M φ = cnRewriteSpec θ M φ := by
  by_cases ht : θ = 1
  · subst ht
    simp only [cnRewrite, if_pos rfl]
    exact (cnRewriteSpec_one M φ).symm
  · simp only [cnRewrite, if_neg ht]
    rfl

/-! ### Claims C5 and C8: matrix rewrite and under-relaxation -/

/-- C5.  In every transient solve (piso, diffusion, transport) with
`time_scheme_factor` θ, the assembled matrix is rewritten before the
time-derivative term is added, the rewrite being `M ← θ·M` together with
`Su ← Su − (1−θ)·(M·φⁿ)` (with `M·φⁿ` taken of the assembled matrix at
the current old-time field); at θ = 1 the rewrite leaves the matrix
unchanged. -/
theorem claim5_crank_nicolson (θ : ℚ) (M : MeshMatrix n T) (φ : Fin n → T)
    (d : MeshMatrix n T) :
    cnRewrite θ M φ = cnRewriteSpec θ M φ ∧ cnRewrite 1 M φ = M ∧
      assembleTransient θ M φ d = addM (cnRewriteSpec θ M φ) d := by
  refine ⟨cnRewrite_eq_spec θ M φ, ?_, ?_⟩
  · rw [cnRewrite_eq_spec 1 M φ, cnRewriteSpec_one]
  · unfold assembleTransient
    rw [cnRewrite_eq_spec θ M φ]

/-- C8.  `M.Relax(α)` leaves the fixed point of `A·φ = Su` unchanged: if
`φ` satisfies the assembled system then it satisfies the relaxed system,
for every relaxation factor `0 < α ≤ 1`. -/
theorem claim8_relax_fixed_point (M : MeshMatrix n T) (α : ℚ) (φ : Fin n → T)
    (hα : 0 < α) (hα1 : α ≤ 1) (h : applyM M φ = M.Su) :
    applyM (M.Relax α φ) φ = (M.Relax α φ).Su := by
  have hα0 : α ≠ 0 := ne_of_gt hα
  funext i
  have hi := congrFun h i
  simp only [applyM, MeshMatrix.Relax] at hi ⊢
  rw [← hi, sub_add_eq_add_sub, ← add_smul]
  congr 2
  field_simp
  ring

/-- Concrete 1-cell matrix for the C8 witness. -/
def relaxWitnessM : MeshMatrix 1 ℚ := ⟨fun _ => 3, fun _ _ => 1, fun _ => 4⟩

/-- Concrete 1-cell field for the C8 witness. -/
def relaxWitnessPhi : Fin 1 → ℚ := fun _ => 2

theorem claim8_relax_fixed_point_witness :
    (0 : ℚ) < 1/2 ∧ (1 : ℚ)/2 ≤ 1 ∧
      applyM relaxWitnessM relaxWitnessPhi = relaxWitnessM.Su ∧
      applyM (relaxWitnessM.Relax (1/2) relaxWitnessPhi) relaxWitnessPhi =
        (relaxWitnessM.Relax (1/2) relaxWitnessPhi).Su := by
  have h : applyM relaxWitnessM relaxWitnessPhi = relaxWitnessM.Su := by
    funext i
    simp [applyM, relaxWitnessM, relaxWitnessPhi, Fin.sum_univ_one]
    norm_num
  exact ⟨by norm_num, by norm_num, h,
    claim8_relax_fixed_point relaxWitnessM (1/2) relaxWitnessPhi (by norm_num)
      (by norm_num) h⟩

/-! ### PISO corrector loop (src/solvers/solver/solver.cpp:277-300)

The differential operators, the linear solver and the boundary-condition
evaluator live in `field.h`, which is not among the given sources; the
corrector is therefore parameterized over an operation record, each field
mirroring one call made by the driver. -/

structure PisoIface (S V Mt : Type) where
  getRHS : Mt → V → V
  smul : V → S → V
  updBC : V → V
  lapSolve : S → S → V → S
  relaxP : S → S → ℚ → S
  gradV : S → V
  negV : V → V
  subV : V → V → V
  addV : V → V → V

/-- The mutable driver state of the corrector: the velocity `U`, the
pressure `p` and the pressure-gradient field `gP`. -/
structure PisoState (S V : Type) where
  U : V
  p : S
  gP : V

variable {S V Mt : Type}

/-- The non-orthogonal correction loop: `count` successive
`Solve((lap(p,rho*api*Mesh::cV) += div(rho*U)))` calls, each taking the
pressure produced by the previous one (src/solvers/solver/solver.cpp:290-291). -/
def orthoLoop (pr : PisoIface S V Mt) (api : S) (Ua : V) : Nat → S → S
  | 0, p => p
  | Nat.succ k, p => orthoLoop pr api Ua k (pr.lapSolve p api Ua)

/-- The pressure Poisson stage (src/solvers/solver/solver.cpp:286-294):
save `po = p` for the steady case, run the `k` loop for `k` in
`0..n_ORTHO`, and if steady relax `p` toward `po` with `pressure_UR`. -/
def pressureStep (pr : PisoIface S V Mt) (steady : Bool) (api : S) (Ua : V)
    (nORTHO : Nat) (pUR : ℚ) (p : S) : S :=
  let po := p
  let p1 := orthoLoop pr api Ua (nORTHO + 1) p
  if steady then pr.relaxP p1 po pUR else p1

/-- One pass of the PISO corrector `j` loop
(src/solvers/solver/solver.cpp:281-300): `U = getRHS(M)*api` with explicit
BCs, the pressure Poisson stage, `gP = -gradV(p)`, and the velocity
correction `U -= gP*api` followed by explicit BCs. -/
def pisoCorrectorPass (pr : PisoIface S V Mt) (steady : Bool) (M : Mt) (api : S)
    (nORTHO : Nat) (pUR : ℚ) (st : PisoState S V) : PisoState S V :=
  let Ua := pr.updBC (pr.smul (pr.getRHS M st.U) api)
  let p1 := pressureStep pr steady api Ua nORTHO pUR st.p
  let gP := pr.negV (pr.gradV p1)
  let U1 := pr.updBC (pr.subV Ua (pr.smul gP api))
  ⟨U1, p1, gP⟩

/-- The corrector repeated `n_PISO` times (src/solvers/solver/solver.cpp:281). -/
def pisoCorrector (pr : PisoIface S V Mt) (steady : Bool) (M : Mt) (api : S)
    (nORTHO nPISO : Nat) (pUR : ℚ) : PisoState S V → PisoState S V :=
  (pisoCorrectorPass pr steady M api nORTHO pUR)^[nPISO]

/-- The tentative velocity as the claim words it:
`U_a = getRHS(M)·api` with explicit BCs applied. -/
def tentativeVelocitySpec (pr : PisoIface S V Mt) (M : Mt) (U : V) (api : S) : V :=
  pr.updBC (pr.smul (pr.getRHS M U) api)

/-- The pressure stage as the claim words it: the Poisson solve iterated
for `k` in `0..n_ORTHO` on the tentative velocity, then, when steady, the
relaxation of `p` toward its pre-loop value with factor `pressure_UR`. -/
def pressureStepSpec (pr : PisoIface S V Mt) (steady : Bool) (api : S) (Ua : V)
    (nORTHO : Nat) (pUR : ℚ) (p : S) : S :=
  let p1 := (fun q => pr.lapSolve q api Ua)^[nORTHO + 1] p
  if steady then pr.relaxP p1 p pUR else p1

theorem orthoLoop_eq_iterate (pr : PisoIface S V Mt) (api : S) (Ua : V) :
    ∀ (k : Nat) (p : S),
      orthoLoop pr api Ua k p = (fun q => pr.lapSolve q api Ua)^[k] p := by
  intro k
  induction k with
  | zero => intro p; rfl
  | succ k ih =>
    intro p
    rw [Function.iterate_succ_apply]
    exact ih (pr.lapSolve p api Ua)

/-! ### Claims C3 and C4: the PISO corrector -/

/-- C4.  In every pass of the corrector loop the tentative velocity is
`getRHS(M)·api` with explicit BCs applied, the pressure Poisson equation
is solved for `k` in `0..n_ORTHO` starting from the current pressure with
that tentative velocity, and in the steady case the result is relaxed
toward the pre-loop pressure with factor `pressure_UR`. -/
theorem claim4_pressure_poisson (pr : PisoIface S V Mt) (steady : Bool) (M : Mt)
    (api : S) (nORTHO : Nat) (pUR : ℚ) (st : PisoState S V) :
    (pisoCorrectorPass pr steady M api nORTHO pUR st).p =
      pressureStepSpec pr steady api (tentativeVelocitySpec pr M st.U api)
        nORTHO pUR st.p ∧
    (pisoCorrectorPass pr true M api nORTHO pUR st).p =
      pr.relaxP
        ((fun q => pr.lapSolve q api (tentativeVelocitySpec pr M st.U api))^[nORTHO + 1]
          st.p) st.p pUR := by
  constructor
  · show pressureStep pr steady api _ nORTHO pUR st.p = _
    unfold pressureStep pressureStepSpec
    rw [orthoLoop_eq_iterate]
    rfl
  · show pressureStep pr true api _ nORTHO pUR st.p = _
    unfold pressureStep
    rw [orthoLoop_eq_iterate]
    rfl

/-- The velocity update asserted by claim C3, built from its words:
`∇p = −grad(p)` and `U ← U_a + ∇p·api`, with BCs refreshed. -/
def claimVelocityCorrection (pr : PisoIface S V Mt) (steady : Bool) (M : Mt)
    (api : S) (nORTHO : Nat) (pUR : ℚ) (st : PisoState S V) : V :=
  let Ua := pr.updBC (pr.smul (pr.getRHS M st.U) api)
  let p1 := pressureStep pr steady api Ua nORTHO pUR st.p
  let gP := pr.negV (pr.gradV p1)
  pr.updBC (pr.addV Ua (pr.smul gP api))

/-- Concrete operation record over rationals for the C3 counterexample:
every operation is a simple arithmetic function, so the corrector pass is
evaluated numerically. -/
def cexIface : PisoIface ℚ ℚ Unit where
  getRHS := fun _ _ => 2
  smul := fun v s => v * s
  updBC := fun v => v
  lapSolve := fun p _ _ => p
  relaxP := fun p _ _ => p
  gradV := fun s => s
  negV := fun v => -v
  subV := fun a b => a - b
  addV := fun a b => a + b

/-- C3 (counterexample).  At a concrete state the corrector pass of the
code (`U -= gP*api`) produces `U = 21`, while the update the claim states
(`U ← U_a + ∇p·api`) would produce `U = −9`: the sign the claim gives for the
velocity correction is wrong about the code. -/
theorem claim3_counterexample :
    (pisoCorrectorPass cexIface false () 3 0 (1/2) ⟨0, 5, 0⟩).U ≠
      claimVelocityCorrection cexIface false () 3 0 (1/2) ⟨0, 5, 0⟩ := by
  norm_num [pisoCorrectorPass, claimVelocityCorrection, pressureStep, orthoLoop, cexIface]

/-- C3 (amended).  In every pass of the corrector loop, after the pressure
Poisson solve the driver computes `∇p = −grad(p)` and corrects the
velocity as `U ← U_a − ∇p·api` (that is, `U -= gP*api`), then refreshes
the explicit boundary conditions of `U`. -/
theorem claim3_amended (pr : PisoIface S V Mt) (steady : Bool) (M : Mt) (api : S)
    (nORTHO : Nat) (pUR : ℚ) (st : PisoState S V) :
    (pisoCorrectorPass pr steady M api nORTHO pUR st).gP =
      pr.negV (pr.gradV ((pisoCorrectorPass pr steady M api nORTHO pUR st).p)) ∧
    (pisoCorrectorPass pr steady M api nORTHO pUR st).U =
      pr.updBC (pr.subV (tentativeVelocitySpec pr M st.U api)
        (pr.smul ((pisoCorrectorPass pr steady M api nORTHO pUR st).gP) api)) := by
  exact ⟨rfl, rfl⟩

/-! ### Wall distance (src/solvers/solver/solver.cpp:585-622) -/

/-- Whether `pat` is a prefix of `s`, comparing characters. -/
def listPrefixEq : List Char → List Char → Bool
  | [], _ => true
  | _ :: _, [] => false
  | a :: as, b :: bs => a == b && listPrefixEq as bs

/-- `s.find(pat) != std::string::npos`: whether `pat` occurs as a
(case-sensitive) substring of `s`. -/
def strFindSub (pat : Str) : Str → Bool
  | [] => listPrefixEq pat []
  | c :: cs => listPrefixEq pat (c :: cs) || strFindSub pat cs

/-- The boundary condition `calc_walldist` installs for a patch named
`bname` (src/solvers/solver/solver.cpp:595-601): kind name and value. -/
def wallDistBC (bname : Str) : Str × ℚ :=
  if strFindSub ("WALL".toList) bname = true then ("DIRICHLET".toList, 0)
  else ("NEUMANN".toList, 0)

/-- Operations of `field.h` used by `calc_walldist`, abstract because that
file is not among the given sources; each field mirrors one call. -/
structure WallDistIface (S V MS : Type) where
  zeroS : S
  updBC : S → S
  lap : S → S → MS
  one : S
  cV : S
  negS : S → S
  solveEq : MS → S → S
  grad : S → V
  fillBnd : V → V
  dotVV : V → V → S
  smulQS : ℚ → S → S
  addS : S → S → S
  sqrtS : S → S
  magV : V → S
  subS : S → S → S

variable {MS : Type}

/-- `Mesh::calc_walldist` (src/solvers/solver/solver.cpp:585-622): zero
`phi`, update its BCs, solve `lap(phi,one) == -cV`, form `g = grad(phi)`
with boundary values filled, and return
`yWall = sqrt((g & g) + 2*phi) - mag(g)`. -/
def calc_walldist (pr : WallDistIface S V MS) : S :=
  let phi := pr.updBC pr.zeroS
  let phi := pr.solveEq (pr.lap phi pr.one) (pr.negS pr.cV)
  let g := pr.fillBnd (pr.grad phi)
  pr.subS (pr.sqrtS (pr.addS (pr.dotVV g g) (pr.smulQS 2 phi))) (pr.magV g)

/-- The wall-distance computation as the claim words it: solve the Poisson
equation `lap(φ,1) = −V_c` from the zeroed field and recover
`y_wall = √(|∇φ|² + 2φ) − |∇φ|`. -/
def calc_walldistSpec (pr : WallDistIface S V MS) : S :=
  let φ := pr.solveEq (pr.lap (pr.updBC pr.zeroS) pr.one) (pr.negS pr.cV)
  let g := pr.fillBnd (pr.grad φ)
  pr.subS (pr.sqrtS (pr.addS (pr.dotVV g g) (pr.smulQS 2 φ))) (pr.magV g)

/-! ### Claim C6: wall distance -/

/-- C6.  The wall-distance driver gives every patch whose name contains
`"WALL"` the Dirichlet value 0 and every other patch zero Neumann, and it
solves `lap(φ,1) = −V_c` and recovers
`y_wall = √(|∇φ|² + 2φ) − |∇φ|`. -/
theorem claim6_walldist :
    (∀ b : Str, strFindSub ("WALL".toList) b = true →
        wallDistBC b = ("DIRICHLET".toList, 0)) ∧
      (∀ b : Str, strFindSub ("WALL".toList) b = false →
        wallDistBC b = ("NEUMANN".toList, 0)) ∧
      ∀ (S V MS : Type) (pr : WallDistIface S V MS),
        calc_walldist pr = calc_walldistSpec pr := by
  refine ⟨?_, ?_, ?_⟩
  · intro b hb
    unfold wallDistBC
    rw [hb]
    simp
  · intro b hb
    unfold wallDistBC
    rw [hb]
    simp
  · intro S V MS pr
    rfl

theorem claim6_walldist_witness :
    strFindSub ("WALL".toList) ("SIDEWALL".toList) = true ∧
      wallDistBC ("SIDEWALL".toList) = ("DIRICHLET".toList, 0) ∧
      strFindSub ("WALL".toList) ("INLET".toList) = false ∧
      wallDistBC ("INLET".toList) = ("NEUMANN".toList, 0) :=
  ⟨by decide, claim6_walldist.1 ("SIDEWALL".toList) (by decide), by decide,
    claim6_walldist.2.1 ("INLET".toList) (by decide)⟩

/-! ### Potential flow (src/solvers/solver/solver.cpp:533-574) -/

/-- A scalar cell field over `n` cells. -/
abbrev SField (n : Nat) := Fin n → ℚ

/-- A vector cell field over `n` cells. -/
abbrev VField (n : Nat) := Fin n → ℚ × ℚ × ℚ

/-- The zeroing loop `for(i=0;i<Mesh::gBCellsStart;i++) p[i]=0`
(src/solvers/solver/solver.cpp:554-557): internal cells sit below the
ghost-cell start index `b`. -/
def zeroInternalS (b : Nat) (f : SField n) : SField n :=
  fun i => if i.val < b then 0 else f i

/-- Vector version of the internal-zeroing loop. -/
def zeroInternalV (b : Nat) (f : VField n) : VField n :=
  fun i => if i.val < b then (0, 0, 0) else f i

/-- Operations of `field.h` used by the potential driver, abstract because
that file is not among the given sources. -/
structure PotentialIface (n : Nat) (MS : Type) where
  updBCV : VField n → VField n
  updBCS : SField n → SField n
  div : VField n → SField n
  lap : SField n → SField n → MS
  one : SField n
  solveEq : MS → SField n → SField n
  grad : SField n → VField n

/-- The `for(k=0;k<=n_ORTHO;k++) Solve(lap(p,one) == divU)` loop of the
potential driver, `count` solves with `divU` held fixed
(src/solvers/solver/solver.cpp:564-565). -/
def potentialOrtho (pr : PotentialIface n MS) (divU : SField n) :
    Nat → SField n → SField n
  | 0, p => p
  | Nat.succ k, p => potentialOrtho pr divU k (pr.solveEq (pr.lap p pr.one) divU)

/-- `potential` (src/solvers/solver/solver.cpp:533-574): zero the internal
values of `U` and `p`, refresh BCs, evaluate `divU = div(U)` once, run the
non-orthogonal loop, and correct `U -= grad(p)` with BCs refreshed. -/
def potential (pr : PotentialIface n MS) (gBCellsStart nORTHO : Nat)
    (U0 : VField n) (p0 : SField n) : VField n × SField n :=
  let U := pr.updBCV (zeroInternalV gBCellsStart U0)
  let p := pr.updBCS (zeroInternalS gBCellsStart p0)
  let divU := pr.div U
  let p1 := potentialOrtho pr divU (nORTHO + 1) p
  let U1 := pr.updBCV (fun i => U i - pr.grad p1 i)
  (U1, p1)

/-- The potential driver as the claim words it: zero the internal field,
solve `lap(p,1) = div(U)` with the `k` loop over `0..n_ORTHO` and `div(U)`
evaluated once before the loop, then correct `U ← U − grad(p)`. -/
def potentialSpec (pr : PotentialIface n MS) (gBCellsStart nORTHO : Nat)
    (U0 : VField n) (p0 : SField n) : VField n × SField n :=
  let U := pr.updBCV (zeroInternalV gBCellsStart U0)
  let divU := pr.div U
  let p1 := potentialOrtho pr divU (nORTHO + 1)
    (pr.updBCS (zeroInternalS gBCellsStart p0))
  (pr.updBCV (fun i => U i - pr.grad p1 i), p1)

theorem potentialOrtho_succ (pr : PotentialIface n MS) (divU : SField n) :
    ∀ (k : Nat) (p : SField n),
      potentialOrtho pr divU (k + 1) p =
        pr.solveEq (pr.lap (potentialOrtho pr divU k p) pr.one) divU := by
  intro k
  induction k with
  | zero => intro p; rfl
  | succ k ih =>
    intro p
    exact ih (pr.solveEq (pr.lap p pr.one) divU)

/-! ### Claim C7: potential flow -/

/-- C7.  The potential driver zeroes the internal field, solves
`lap(p,1) = div(U)` with `div(U)` evaluated once before the `k` loop over
`0..n_ORTHO`, and corrects `U ← U − grad(p)`; and whenever the abstract
operators satisfy linearity of `div`, transparency of the BC refresh to
`div`, and exactness of each Poisson solve (`div(grad(solution)) = rhs`),
the corrected velocity is divergence-free. -/
theorem claim7_potential (pr : PotentialIface n MS) (b nORTHO : Nat)
    (U0 : VField n) (p0 : SField n)
    (hlin : ∀ a c : VField n,
      pr.div (fun i => a i - c i) = fun i => pr.div a i - pr.div c i)
    (hupd : ∀ v : VField n, pr.div (pr.updBCV v) = pr.div v)
    (hsolve : ∀ (q r : SField n),
      pr.div (pr.grad (pr.solveEq (pr.lap q pr.one) r)) = r) :
    potential pr b nORTHO U0 p0 = potentialSpec pr b nORTHO U0 p0 ∧
      pr.div (potential pr b nORTHO U0 p0).1 = fun _ => 0 := by
  constructor
  · rfl
  · show pr.div (pr.updBCV _) = _
    rw [hupd, hlin]
    funext i
    have hp := potentialOrtho_succ pr
      (pr.div (pr.updBCV (zeroInternalV b U0))) nORTHO
      (pr.updBCS (zeroInternalS b p0))
    simp only [potential, hp, hsolve]
    exact sub_self _

/-- Concrete 1-cell operator instance for the C7 witness: `div` reads the
first velocity component, `grad` writes it, and the solve returns the
right-hand side, so every hypothesis of C7 holds definitionally. -/
def potWitnessIface : PotentialIface 1 (SField 1) where
  updBCV := fun v => v
  updBCS := fun s => s
  div := fun v => fun i => (v i).1
  lap := fun p _ => p
  one := fun _ => 1
  solveEq := fun _ r => r
  grad := fun q => fun i => (q i, 0, 0)

/-- Concrete initial velocity for the C7 witness. -/
def potWitnessU : VField 1 := fun _ => (7, 3, 1)

/-- Concrete initial pressure for the C7 witness. -/
def potWitnessP : SField 1 := fun _ => 4

theorem claim7_potential_witness :
    potential potWitnessIface 1 0 potWitnessU potWitnessP =
        potentialSpec potWitnessIface 1 0 potWitnessU potWitnessP ∧
      potWitnessIface.div (potential potWitnessIface 1 0 potWitnessU potWitnessP).1 =
        fun _ => 0 :=
  claim7_potential potWitnessIface 1 0 potWitnessU potWitnessP
    (fun _ _ => rfl) (fun _ => rfl) (fun _ _ => rfl)

/-! ### LES running averages (src/solvers/solver/solver.cpp:311-316, 334-351)

The accumulators and the checkpoint arithmetic are elementwise over cells
(and, for `U`, over components); they are modelled per scalar entry. -/

variable {m : Nat}

/-- The per-time-step accumulation `Uavg += U; Ustd += (U*U)`
(src/solvers/solver/solver.cpp:311-316), on one scalar accumulator pair. -/
def lesAccumulate (S1 S2 U : Fin m → ℚ) : (Fin m → ℚ) × (Fin m → ℚ) :=
  (fun i => S1 i + U i, fun i => S2 i + U i * U i)

/-- The accumulator pair after folding the accumulation over a list of
per-step fields, starting from zero. -/
def lesAccumList (us : List (Fin m → ℚ)) : (Fin m → ℚ) × (Fin m → ℚ) :=
  us.foldl (fun a u => lesAccumulate a.1 a.2 u) (fun _ => 0, fun _ => 0)

/-- The write-checkpoint block (src/solvers/solver/solver.cpp:334-351) on
one accumulator pair: save `Ua = Uavg, Us = Ustd`; `Uavg /= n`;
`Ustd += Uavg*(n*Uavg - 2*Ua)`; `Ustd = sqrt(Ustd/n)`; emit; then restore
`Uavg = Ua; Ustd = Us`.  Returns (emitted mean, emitted std, restored
sum, restored sum of squares); `sq` is the elementwise `sqrt`. -/
def lesCheckpoint (sq : ℚ → ℚ) (nn : ℚ) (S1 S2 : Fin m → ℚ) :
    (Fin m → ℚ) × (Fin m → ℚ) × (Fin m → ℚ) × (Fin m → ℚ) :=
  let Ua := S1
  let Us := S2
  let avg := fun i => S1 i / nn
  let std := fun i => S2 i + avg i * (nn * avg i - 2 * Ua i)
  (avg, fun i => sq (std i / nn), Ua, Us)

theorem lesFold_aux (us : List (Fin m → ℚ)) :
    ∀ acc : (Fin m → ℚ) × (Fin m → ℚ),
      ((us.foldl (fun a u => lesAccumulate a.1 a.2 u) acc).1 =
        fun i => acc.1 i + (us.map (fun u => u i)).sum) ∧
      ((us.foldl (fun a u => lesAccumulate a.1 a.2 u) acc).2 =
        fun i => acc.2 i + (us.map (fun u => u i * u i)).sum) := by
  induction us with
  | nil =>
    intro acc
    constructor <;> (funext i; simp)
  | cons u us ih =>
    intro acc
    constructor
    · rw [List.foldl_cons, (ih _).1]
      funext i
      simp [lesAccumulate, add_assoc]
    · rw [List.foldl_cons, (ih _).2]
      funext i
      simp [lesAccumulate, add_assoc]

/-! ### Claim C9: LES statistics -/

/-- C9.  The accumulators hold the running sums `Σ U` and `Σ U²`; at a
checkpoint with step count `n ≠ 0` the emitted mean is `(Σ U)/n` and the
emitted standard deviation is `sqrt((Σ U² − 2·mean·Σ U + n·mean²)/n)`,
which equals the Welford closed form `sqrt(Σ U²/n − mean²)` in exact
arithmetic; the raw accumulators are restored after emission. -/
theorem claim9_les_average (sq : ℚ → ℚ) (nn : ℚ) (S1 S2 : Fin m → ℚ)
    (us : List (Fin m → ℚ)) (h : nn ≠ 0) :
    (lesAccumList us).1 = (fun i => (us.map (fun u => u i)).sum) ∧
      (lesAccumList us).2 = (fun i => (us.map (fun u => u i * u i)).sum) ∧
      (lesCheckpoint sq nn S1 S2).1 = (fun i => S1 i / nn) ∧
      (lesCheckpoint sq nn S1 S2).2.1 =
        (fun i =>
          sq ((S2 i - 2 * (S1 i / nn) * S1 i + nn * (S1 i / nn) ^ 2) / nn)) ∧
      (lesCheckpoint sq nn S1 S2).2.1 =
        (fun i => sq (S2 i / nn - (S1 i / nn) ^ 2)) ∧
      (lesCheckpoint sq nn S1 S2).2.2 = (S1, S2) := by
  refine ⟨?_, ?_, rfl, ?_, ?_, rfl⟩
  · rw [lesAccumList, (lesFold_aux us _).1]
    funext i
    simp
  · rw [lesAccumList, (lesFold_aux us _).2]
    funext i
    simp
  · funext i
    show sq _ = sq _
    congr 1
    ring
  · funext i
    show sq _ = sq _
    congr 1
    field_simp
    ring

/-- Concrete accumulated sum for the C9 witness. -/
def lesWitnessS1 : Fin 1 → ℚ := fun _ => 6

/-- Concrete accumulated sum of squares for the C9 witness. -/
def lesWitnessS2 : Fin 1 → ℚ := fun _ => 10

/-- Concrete per-step fields for the C9 witness. -/
def lesWitnessSteps : List (Fin 1 → ℚ) := [fun _ => 1, fun _ => 2]

theorem claim9_les_average_witness :
    (4 : ℚ) ≠ 0 ∧
      ((lesAccumList lesWitnessSteps).1 =
          (fun i => (lesWitnessSteps.map (fun u => u i)).sum) ∧
        (lesAccumList lesWitnessSteps).2 =
          (fun i => (lesWitnessSteps.map (fun u => u i * u i)).sum) ∧
        (lesCheckpoint id 4 lesWitnessS1 lesWitnessS2).1 =
          (fun i => lesWitnessS1 i / 4) ∧
        (lesCheckpoint id 4 lesWitnessS1 lesWitnessS2).2.1 =
          (fun i =>
            id ((lesWitnessS2 i - 2 * (lesWitnessS1 i / 4) * lesWitnessS1 i +
              4 * (lesWitnessS1 i / 4) ^ 2) / 4)) ∧
        (lesCheckpoint id 4 lesWitnessS1 lesWitnessS2).2.1 =
          (fun i => id (lesWitnessS2 i / 4 - (lesWitnessS1 i / 4) ^ 2)) ∧
        (lesCheckpoint id 4 lesWitnessS1 lesWitnessS2).2.2 =
          (lesWitnessS1, lesWitnessS2)) :=
  ⟨by norm_num,
    claim9_les_average id 4 lesWitnessS1 lesWitnessS2 lesWitnessSteps (by norm_num)⟩

/-! ### Deferred-correction outer loop (src/solvers/solver/solver.cpp:229-230,
246, 393-394, 408, 470-471, 486) -/

variable {α : Type}

/-- `for(Int n = 0;n <= n_DEFERRED;n++) body`: the body runs
`n_DEFERRED + 1` times. -/
def deferredLoop (body : α → α) (nDeferred : Nat) : α → α :=
  body^[nDeferred + 1]

/-- `if(Steady) n_DEFERRED = 0;` (src/solvers/solver/solver.cpp:230, 394,
471): the deferred-correction count actually used by the time loop. -/
def effectiveDeferred (steady : Bool) (nDeferred : Nat) : Nat :=
  if steady then 0 else nDeferred

/-- The per-time-step structure shared by piso, diffusion and transport:
the deferred-correction loop around the assembly-and-solve body, with the
count forced by `effectiveDeferred`. -/
def solverTimeStep (steady : Bool) (nDeferred : Nat) (body : α → α) : α → α :=
  deferredLoop body (effectiveDeferred steady nDeferred)

/-- Assembly and solve calls of the scalar drivers (diffusion and
transport), abstract where they live in `field.h`: `assemble` builds
`-lap(T,mu)` resp. `div(T,F,mu) - lap(T,mu)`, `ddt` builds `ddt(T,rho)`,
`solve` runs `Solve(M)` and yields the updated field. -/
structure ScalarSolveIface (n : Nat) where
  assemble : SField n → MeshMatrix n ℚ
  ddt : SField n → MeshMatrix n ℚ
  solve : MeshMatrix n ℚ → SField n

/-- The deferred-loop body shared by `diffusion`
(src/solvers/solver/solver.cpp:409-424) and `transport`
(src/solvers/solver/solver.cpp:487-504): assemble, then either relax
(steady) or Crank–Nicolson-rewrite and add `ddt` (transient), then solve. -/
def scalarSolverBody (pr : ScalarSolveIface n) (steady : Bool) (θ tUR : ℚ)
    (T : SField n) : SField n :=
  let M := pr.assemble T
  let M1 := if steady then M.Relax tUR T else assembleTransient θ M T (pr.ddt T)
  pr.solve M1

/-- The diffusion time step (src/solvers/solver/solver.cpp:408-425). -/
def diffusionTimeStep (pr : ScalarSolveIface n) (steady : Bool) (θ tUR : ℚ)
    (nDeferred : Nat) : SField n → SField n :=
  solverTimeStep steady nDeferred (scalarSolverBody pr steady θ tUR)

/-- The transport time step (src/solvers/solver/solver.cpp:486-505). -/
def transportTimeStep (pr : ScalarSolveIface n) (steady : Bool) (θ tUR : ℚ)
    (nDeferred : Nat) : SField n → SField n :=
  solverTimeStep steady nDeferred (scalarSolverBody pr steady θ tUR)

/-- The deferred loop of the piso time step around the momentum/corrector body
(src/solvers/solver/solver.cpp:246-308). -/
def pisoTimeStep (steady : Bool) (nDeferred : Nat)
    (body : PisoState S V → PisoState S V) : PisoState S V → PisoState S V :=
  solverTimeStep steady nDeferred body

/-! ### Claim C10: steady runs force one deferred pass -/

/-- C10.  When the controls state is STEADY, `n_DEFERRED` is forced to 0
before the time loop, so in piso, diffusion and transport the
assembly-and-solve body executes exactly once per outer iteration,
whatever `n_DEFERRED` the configuration gave. -/
theorem claim10_steady_deferred (nDeferred : Nat) (pr : ScalarSolveIface n)
    (θ tUR : ℚ) (T : SField n) (body : PisoState S V → PisoState S V)
    (st : PisoState S V) :
    effectiveDeferred true nDeferred = 0 ∧
      diffusionTimeStep pr true θ tUR nDeferred T = scalarSolverBody pr true θ tUR T ∧
      transportTimeStep pr true θ tUR nDeferred T = scalarSolverBody pr true θ tUR T ∧
      pisoTimeStep true nDeferred body st = body st := by
  refine ⟨rfl, ?_, ?_, ?_⟩ <;>
    simp [diffusionTimeStep, transportTimeStep, pisoTimeStep, solverTimeStep,
      deferredLoop, effectiveDeferred]

end Solver
